import Mathlib

/-!
Verification of the Technology Group Target Scheduler in
`switch_model/hawaii/heco_outlook_2019.py`.

The development shallowly embeds the scheduler's data model and operations:
build events, the merge of definite and PSIP (policy-plan) target lists,
the rebuild-expansion loop, the per-period target aggregation
(`tech_group_target`), the last-definite-target computation, and the
enforcement-mode classifier (`tech_group_target_rule`), together with the
`USE_PSIP_PLAN` environment-override parser.

Years are naturals, quantities are rationals.  A raw target quantity is
either a plain power quantity or a `(MW, hours)` pair for storage
technologies (`Qty`); the power/energy split of lines 450-455 of the source
is modelled by `powerTargets` / `energyTargets`.  The rebuild `while` loop
is modelled by the fuel-indexed `rebuildLoop`; `successorYears` runs it with
fuel `H + 2`, which suffices whenever the service life is positive (proved
below as the termination claim).
-/

namespace HecoOutlook

/-- A raw target quantity: plain MW, or a `(MW, hours)` pair for storage. -/
abbrev Qty := ℚ ⊕ ℚ × ℚ

/-- A build event `(year, tech_group, quantity)` as stored in
`tech_group_targets` before the power/energy split. -/
structure BEvent where
  year : ℕ
  tech : String
  qty : Qty
deriving DecidableEq, Repr

/-- A split target event `(year, tech_group, scalar quantity)` as produced by
the `tech_group_power_targets` / `tech_group_energy_targets` comprehensions. -/
structure TEvent where
  year : ℕ
  tech : String
  qty : ℚ
deriving DecidableEq, Repr

/-- `q[0] if type(q) is tuple else q` (source line 451). -/
def powerQty : Qty → ℚ
  | .inl q => q
  | .inr (p, _) => p

/-- `tech_group_power_targets` (source lines 450-452). -/
def powerTargets (l : List BEvent) : List TEvent :=
  l.map fun e => ⟨e.year, e.tech, powerQty e.qty⟩

/-- `tech_group_energy_targets` (source lines 453-455): only tuple-valued
events contribute, with quantity `MW * hours`. -/
def energyTargets (l : List BEvent) : List TEvent :=
  l.filterMap fun e =>
    match e.qty with
    | .inl _ => none
    | .inr (p, h) => some ⟨e.year, e.tech, p * h⟩

/-- `m.PERIODS.prev(per)`: the period start immediately before `per` in the
ordered period list (0 when there is none; the code only calls this with
`per` a non-first member of the list). -/
def prevPeriod : List ℕ → ℕ → ℕ
  | [], _ => 0
  | [_], _ => 0
  | a :: b :: rest, per => if b = per then a else prevPeriod (b :: rest) per

/-- `last_period` (source line 425): the start year of the last period,
read from the last row of `periods.csv`. -/
def lastPeriodOf (periods : List ℕ) : ℕ := periods.getLast?.getD 0

/-- `tech_group_target` (source lines 468-480): sum the quantities of the
events of this tech group whose year lies in `(start, per]`, where `start`
is 0 for the first period and otherwise the previous period's start year,
and whose lifetime has not elapsed (`tyear + tech_life[ttech] > end`). -/
def tech_group_target (periods : List ℕ) (per : ℕ) (tech : String)
    (targets : List TEvent) (life : String → ℕ) : ℚ :=
  let start := if periods.head? = some per then 0 else prevPeriod periods per
  ((targets.filter fun e =>
      decide (e.tech = tech ∧ start < e.year ∧ e.year ≤ per ∧
        per < e.year + life e.tech)).map TEvent.qty).sum

/-- The inner `while` loop of the rebuild expansion (source lines 444-447),
with an explicit iteration bound `fuel` and loop counter `k` (`rebuild` in
the source): while `build_year + k*life <= last_period`, emit that year and
increment `k`. -/
def rebuildLoop (y L H : ℕ) : ℕ → ℕ → List ℕ
  | 0, _ => []
  | fuel + 1, k => if y + k * L ≤ H then (y + k * L) :: rebuildLoop y L H fuel (k + 1) else []

/-- The synthesized rebuild years of a base event at year `y` with service
life `L` and horizon end `H`.  Fuel `H + 2` suffices whenever `0 < L`. -/
def successorYears (y L H : ℕ) : List ℕ := rebuildLoop y L H (H + 2) 1

/-- The rebuild events appended for one base event, with a given iteration
bound: same tech group and quantity, years from the rebuild loop. -/
def successorEventsFuel (fuel : ℕ) (life : String → ℕ) (H : ℕ) (b : BEvent) : List BEvent :=
  (rebuildLoop b.year (life b.tech) H fuel 1).map fun y => ⟨y, b.tech, b.qty⟩

/-- The rebuild events appended for one base event (fuel `H + 2`). -/
def successorEvents (life : String → ℕ) (H : ℕ) (b : BEvent) : List BEvent :=
  (successorYears b.year (life b.tech) H).map fun y => ⟨y, b.tech, b.qty⟩

/-- The rebuild expansion (source lines 429-448) with an explicit iteration
bound for the inner loop: `rebuildable_targets = existing seeds + targets`,
and the successors of every rebuildable event are appended to `targets`. -/
def expandTargetsFuel (fuel : ℕ) (seeds targets : List BEvent)
    (life : String → ℕ) (H : ℕ) : List BEvent :=
  targets ++ (seeds ++ targets).flatMap (successorEventsFuel fuel life H)

/-- The rebuild expansion as executed by the source (inner loop runs to
completion; fuel `H + 2` suffices whenever every service life is positive,
proved below). -/
def expandTargets (seeds targets : List BEvent) (life : String → ℕ) (H : ℕ) : List BEvent :=
  expandTargetsFuel (H + 2) seeds targets life H

/-- Merge of the target lists (source lines 365-374): definite targets are
always included; PSIP targets only when `psip` is true, filtered to
`year <= psip_relax_after` when that option is set. -/
def mergedTargets (definite psipT : List BEvent) (psip : Bool)
    (relaxAfter : Option ℕ) : List BEvent :=
  if psip then
    definite ++ (match relaxAfter with
      | some ra => psipT.filter fun e => e.year ≤ ra
      | none => psipT)
  else definite

/-- The final contents of `tech_group_targets_definite` at the time
`last_definite_target` is computed (source line 533).  When `psip` is true,
line 372 builds a fresh list, so the definite list is unchanged.  When
`psip` is false, line 374 makes `tech_group_targets` an alias of
`tech_group_targets_definite`, so the rebuild loop's appends (line 446)
also extend the definite list. -/
def finalDefiniteList (seeds definite : List BEvent) (psip : Bool)
    (life : String → ℕ) (H : ℕ) : List BEvent :=
  if psip then definite
  else expandTargets seeds definite life H

/-- `last_definite_target` (source lines 532-534): the latest year among
events of this tech group in the (final) definite list, defaulting to 0. -/
def lastDefiniteTarget (definite : List BEvent) (t : String) : ℕ :=
  definite.foldl (fun acc e => if e.tech = t then max e.year acc else acc) 0

/-- Check whether `needle` occurs as a contiguous run inside `hay`
(Python's `txt in tech` substring test). -/
def containsChars (needle : List Char) : List Char → Bool
  | [] => needle.isEmpty
  | c :: rest => needle.isPrefixOf (c :: rest) || containsChars needle rest

/-- `is_renewable` (source lines 33-34): the name contains "PV", "Wind" or
"Solar". -/
def is_renewable (tech : String) : Bool :=
  ["PV", "Wind", "Solar"].any fun txt => containsChars txt.toList tech.toList

/-- The externally owned decision-variable registry for one build variable
(`m.BuildGen` or `m.BuildStorageEnergy`): the project list, each project's
technology, whether the variable is indexed at `(g, per)`, and its value. -/
structure ProjVars where
  projects : List String
  gen_tech : String → String
  hasVar : String → ℕ → Bool
  buildVal : String → ℕ → ℚ

/-- The projects summed by `tech_group_target_rule` (source lines 546-552):
forecasted technology mapping to this tech group, with the build variable
defined at `(g, per)`.  `ttg` is `m.tech_tech_group` as a partial map, with
`none` for technologies outside `m.FORECASTED_TECHS`. -/
def matchingProjects (pv : ProjVars) (ttg : String → Option String)
    (tg : String) (per : ℕ) : List String :=
  pv.projects.filter fun g => ttg (pv.gen_tech g) == some tg && pv.hasVar g per

/-- The constraint emitted for one `(period, tech_group)` pair: skip, an
equality `build == target`, or a lower bound `build >= target`. -/
inductive EmittedConstraint where
  | Skip : EmittedConstraint
  | MustEqual (build target : ℚ) : EmittedConstraint
  | AtLeast (build target : ℚ) : EmittedConstraint
deriving DecidableEq, Repr

/-- `tech_group_target_rule` (source lines 536-576).  When no matching
project/variable exists (Python: the `sum` is still the int 0), a zero
target yields `Constraint.Skip` and a non-zero target raises; otherwise the
enforcement mode is chosen by the PSIP flag (with `psip_relax_after`), the
last definite target year, and the minimal-renewables flag. -/
def tech_group_target_rule (psip : Bool) (relaxAfter : Option ℕ)
    (minRenew : Bool) (lastDef : String → ℕ) (pv : ProjVars)
    (ttg : String → Option String) (per : ℕ) (tg : String) (target : ℚ) :
    Except String EmittedConstraint :=
  let matching := matchingProjects pv ttg tg per
  let build := (matching.map fun g => pv.buildVal g per).sum
  if matching.isEmpty then
    if target = 0 then .ok .Skip
    else .error ("Target was set for " ++ tg ++ ", but no matching projects are available.")
  else if psip && (match relaxAfter with
      | none => true
      | some y => decide (per ≤ y)) then
    .ok (.MustEqual build target)
  else if per ≤ lastDef tg then
    .ok (.MustEqual build target)
  else if minRenew && is_renewable tg then
    .ok (.MustEqual build target)
  else
    .ok (.AtLeast build target)

/-- `Enforce_Tech_Group_Power_Target` (source lines 578-585), end to end for
one `(period, tech_group)` pair: merge the target lists, run the rebuild
expansion, aggregate the power target, add the predetermined power capacity
for `(tech_group, period)`, and classify. -/
def enforcePowerTarget (periods : List ℕ) (life : String → ℕ)
    (seeds definite psipT : List BEvent) (psip : Bool)
    (relaxAfter : Option ℕ) (minRenew : Bool) (pv : ProjVars)
    (ttg : String → Option String) (predetermined : String → ℕ → ℚ)
    (per : ℕ) (tg : String) : Except String EmittedConstraint :=
  let H := lastPeriodOf periods
  let expanded := expandTargets seeds (mergedTargets definite psipT psip relaxAfter) life H
  let lastDef := lastDefiniteTarget (finalDefiniteList seeds definite psip life H)
  let target := tech_group_target periods per tg (powerTargets expanded) life +
    predetermined tg per
  tech_group_target_rule psip relaxAfter minRenew lastDef pv ttg per tg target

/-- `Enforce_Tech_Group_Energy_Target` (source lines 586-593): as for power,
but aggregating the energy target list against the storage-energy build
variable and the predetermined energy capacity. -/
def enforceEnergyTarget (periods : List ℕ) (life : String → ℕ)
    (seeds definite psipT : List BEvent) (psip : Bool)
    (relaxAfter : Option ℕ) (minRenew : Bool) (pv : ProjVars)
    (ttg : String → Option String) (predetermined : String → ℕ → ℚ)
    (per : ℕ) (tg : String) : Except String EmittedConstraint :=
  let H := lastPeriodOf periods
  let expanded := expandTargets seeds (mergedTargets definite psipT psip relaxAfter) life H
  let lastDef := lastDefiniteTarget (finalDefiniteList seeds definite psip life H)
  let target := tech_group_target periods per tg (energyTargets expanded) life +
    predetermined tg per
  tech_group_target_rule psip relaxAfter minRenew lastDef pv ttg per tg target

/-- Python's `str.lower()` as used on the `USE_PSIP_PLAN` value (ASCII
case folding over the character sequence). -/
def strLower (s : String) : String := ⟨s.data.map Char.toLower⟩

/-- The spellings accepted as "true" for `USE_PSIP_PLAN` (source line 51). -/
def psipTrueSpellings : List String := ["1", "true", "y", "yes", "on"]

/-- The spellings accepted as "false" for `USE_PSIP_PLAN` (source line 53). -/
def psipFalseSpellings : List String := ["0", "false", "n", "no", "off"]

/-- Resolution of the PSIP flag (source lines 47-56): the `USE_PSIP_PLAN`
environment variable, when present, overrides the `--psip-force` /
`--psip-relax` command-line flag; an unrecognized value raises before any
target is computed. -/
def use_psip_plan (env : Option String) (psip_force : Bool) : Except String Bool :=
  match env with
  | none => .ok psip_force
  | some s =>
    if strLower s ∈ psipTrueSpellings then .ok true
    else if strLower s ∈ psipFalseSpellings then .ok false
    else .error ("Unrecognized value for environment variable USE_PSIP_PLAN=" ++ s ++
      " (should be 0 or 1)")

/-- Written from the specification text: the start of a period's
attribution window is zero for the first period and otherwise the previous
period's start year. -/
def specStart (periods : List ℕ) (per : ℕ) : ℕ :=
  if periods.head? = some per then 0 else prevPeriod periods per

/-- Written from the specification text: an event at year `Y` contributes
to period `P`'s target for group `G` iff `prev(P) < Y <= P` and
`Y + life(G) > P` (with `prev(P)` read as `specStart`). -/
def specContributes (periods : List ℕ) (per : ℕ) (tech : String)
    (life : String → ℕ) (e : TEvent) : Bool :=
  decide (e.tech = tech) &&
    decide (specStart periods per < e.year) &&
    decide (e.year ≤ per) &&
    decide (e.year + life e.tech > per)

/-! Helper lemmas about the rebuild loop. -/

lemma mem_rebuildLoop (y L H : ℕ) (hL : 0 < L) :
    ∀ fuel k z, H + 2 ≤ fuel + k →
      (z ∈ rebuildLoop y L H fuel k ↔ ∃ j, k ≤ j ∧ z = y + j * L ∧ z ≤ H) := by
  intro fuel
  induction fuel with
  | zero =>
    intro k z hk
    simp only [rebuildLoop, List.not_mem_nil, false_iff]
    rintro ⟨j, hj, rfl, hle⟩
    have hjL : j ≤ j * L := le_mul_of_one_le_right (Nat.zero_le j) hL
    omega
  | succ fuel ih =>
    intro k z hk
    simp only [rebuildLoop]
    by_cases hcond : y + k * L ≤ H
    · rw [if_pos hcond]
      simp only [List.mem_cons, ih (k + 1) z (by omega)]
      constructor
      · rintro (rfl | ⟨j, hj, rfl, hle⟩)
        · exact ⟨k, le_refl k, rfl, hcond⟩
        · exact ⟨j, by omega, rfl, hle⟩
      · rintro ⟨j, hj, rfl, hle⟩
        rcases eq_or_lt_of_le hj with rfl | hlt
        · exact Or.inl rfl
        · exact Or.inr ⟨j, by omega, rfl, hle⟩
    · rw [if_neg hcond]
      simp only [List.not_mem_nil, false_iff]
      rintro ⟨j, hj, rfl, hle⟩
      have hmul : k * L ≤ j * L := mul_le_mul_right' hj L
      omega

lemma rebuildLoop_stab (y L H : ℕ) (hL : 0 < L) :
    ∀ f₁ f₂ k, H + 2 ≤ f₁ + k → H + 2 ≤ f₂ + k →
      rebuildLoop y L H f₁ k = rebuildLoop y L H f₂ k := by
  intro f₁
  induction f₁ with
  | zero =>
    intro f₂ k h1 h2
    cases f₂ with
    | zero => rfl
    | succ f =>
      simp only [rebuildLoop]
      rw [if_neg]
      have hkL : k ≤ k * L := le_mul_of_one_le_right (Nat.zero_le k) hL
      omega
  | succ f ih =>
    intro f₂ k h1 h2
    cases f₂ with
    | zero =>
      simp only [rebuildLoop]
      rw [if_neg]
      have hkL : k ≤ k * L := le_mul_of_one_le_right (Nat.zero_le k) hL
      omega
    | succ f₂ =>
      simp only [rebuildLoop]
      by_cases hc : y + k * L ≤ H
      · rw [if_pos hc, if_pos hc, ih f₂ (k + 1) (by omega) (by omega)]
      · rw [if_neg hc, if_neg hc]

lemma mem_successorYears (y L H : ℕ) (hL : 0 < L) (z : ℕ) :
    z ∈ successorYears y L H ↔ ∃ k, 1 ≤ k ∧ z = y + k * L ∧ z ≤ H :=
  mem_rebuildLoop y L H hL (H + 2) 1 z (by omega)

lemma mem_successorEvents (life : String → ℕ) (H : ℕ) (b : BEvent)
    (hL : 0 < life b.tech) (e : BEvent) :
    e ∈ successorEvents life H b ↔
      e.tech = b.tech ∧ e.qty = b.qty ∧
        ∃ k, 1 ≤ k ∧ e.year = b.year + k * life b.tech ∧ e.year ≤ H := by
  simp only [successorEvents, List.mem_map]
  constructor
  · rintro ⟨z, hz, rfl⟩
    rcases (mem_successorYears _ _ _ hL z).mp hz with ⟨k, hk, rfl, hle⟩
    exact ⟨rfl, rfl, k, hk, rfl, hle⟩
  · rintro ⟨ht, hq, k, hk, hy, hle⟩
    refine ⟨e.year, (mem_successorYears _ _ _ hL e.year).mpr ⟨k, hk, hy, hle⟩, ?_⟩
    cases e
    simp_all

lemma mem_expandTargets (seeds targets : List BEvent) (life : String → ℕ) (H : ℕ)
    (e : BEvent) :
    e ∈ expandTargets seeds targets life H ↔
      e ∈ targets ∨ ∃ b, b ∈ seeds ++ targets ∧ e ∈ successorEvents life H b := by
  simp only [expandTargets, expandTargetsFuel, List.mem_append, List.mem_flatMap,
    successorEventsFuel, successorEvents, successorYears]

lemma tech_group_target_rule_target_value (psip : Bool) (relaxAfter : Option ℕ)
    (minRenew : Bool) (lastDef : String → ℕ) (pv : ProjVars)
    (ttg : String → Option String) (per : ℕ) (tg : String) (target b v : ℚ)
    (h : tech_group_target_rule psip relaxAfter minRenew lastDef pv ttg per tg target =
        .ok (.MustEqual b v) ∨
      tech_group_target_rule psip relaxAfter minRenew lastDef pv ttg per tg target =
        .ok (.AtLeast b v)) :
    v = target := by
  simp only [tech_group_target_rule] at h
  rcases h with h | h <;> split_ifs at h <;> simp_all

/-! Claim theorems. -/

/-- C1: for every (period, tech group), the aggregated power target equals the
sum of power quantities over exactly those events whose year `Y` satisfies
`prev(P) < Y <= P` (with `prev` read as 0 for the first period and otherwise
the previous period's start year) and whose lifetime has not elapsed
(`Y + life > P`), the contribution condition being written here as the
spec-side predicate `specContributes`. -/
theorem power_target_aggregation_matches_spec (periods : List ℕ) (per : ℕ)
    (tech : String) (life : String → ℕ) (targets : List BEvent) :
    tech_group_target periods per tech (powerTargets targets) life =
      (((powerTargets targets).filter (specContributes periods per tech life)).map
        TEvent.qty).sum := by
  simp only [tech_group_target]
  congr 2
  apply List.filter_congr
  intro e _
  simp [specContributes, specStart, Bool.decide_and, Bool.and_assoc]

/-- The single definite event of the end-to-end scenario of C2:
`(2020, "DistPV", 162.3)`. -/
def c2definite : List BEvent := [⟨2020, "DistPV", .inl (1623 / 10)⟩]

/-- Uniform 25-year service life for the C2 scenario. -/
def c2life : String → ℕ := fun _ => 25

/-- Periods every 5 years from 2020 through 2045 for the C2 scenario. -/
def c2periods : List ℕ := [2020, 2025, 2030, 2035, 2040, 2045]

/-- One buildable DistPV project, available in every period, for the C2
scenario. -/
def c2pv : ProjVars := ⟨["P1"], fun _ => "DistPV", fun _ _ => true, fun _ _ => 0⟩

/-- Technology-to-group map for the C2 scenario. -/
def c2ttg : String → Option String := fun t => if t = "DistPV" then some "DistPV" else none

/-- C2: evaluation of the pipeline on the end-to-end scenario (definite event
`(2020, "DistPV", 162.3)`, life 25, horizon end 2045, periods every 5 years
from 2020, strictPlan = false).  Because line 374 of the source aliases
`tech_group_targets` to `tech_group_targets_definite` when the PSIP flag is
off, the rebuild loop's append of the 2045 rebuild event extends the definite
list before `last_definite_target` is computed, so the lock-in year becomes
2045 and every period through 2045 — including the intermediate periods
2025-2040, whose targets are 0 — is classified exactly (`build == target`),
not as a lower bound.  This contradicts the claim (and the source's own
comments at lines 99-101 and 528-531, which say rebuild targets must not
extend the fixed-construction window). -/
theorem rebuild_extends_definite_lockin_window :
    lastDefiniteTarget (finalDefiniteList [] c2definite false c2life 2045) "DistPV" = 2045 ∧
    enforcePowerTarget c2periods c2life [] c2definite [] false none false c2pv c2ttg
      (fun _ _ => 0) 2020 "DistPV" = .ok (.MustEqual 0 (1623 / 10)) ∧
    enforcePowerTarget c2periods c2life [] c2definite [] false none false c2pv c2ttg
      (fun _ _ => 0) 2025 "DistPV" = .ok (.MustEqual 0 0) ∧
    enforcePowerTarget c2periods c2life [] c2definite [] false none false c2pv c2ttg
      (fun _ _ => 0) 2045 "DistPV" = .ok (.MustEqual 0 (1623 / 10)) := by
  have hexp : expandTargets [] c2definite c2life 2045 =
      [⟨2020, "DistPV", .inl (1623 / 10)⟩, ⟨2045, "DistPV", .inl (1623 / 10)⟩] := rfl
  refine ⟨by decide, ?_, ?_, ?_⟩ <;>
  · simp only [enforcePowerTarget, mergedTargets, lastPeriodOf, c2periods]
    norm_num [hexp, tech_group_target_rule, matchingProjects, c2pv, c2ttg, c2life,
      tech_group_target, prevPeriod, powerTargets, powerQty, finalDefiniteList,
      lastDefiniteTarget]

/-- C3 counterexample: with periods `[2020, 2025, 2030]` and life 25, a build
event at year 2022 does NOT contribute to the 2030 period target: the window
for 2030 is `(2025, 2030]` and `2022 <= 2025`, so the aggregated 2030 target
over the single event is 0, and the contribution predicate is false. -/
theorem event_2022_does_not_contribute_to_2030 :
    tech_group_target [2020, 2025, 2030] 2030 "T"
        (powerTargets [⟨2022, "T", .inl 100⟩]) (fun _ => 25) = 0 ∧
      specContributes [2020, 2025, 2030] 2030 "T" (fun _ => 25) ⟨2022, "T", 100⟩ = false := by
  constructor
  · norm_num [tech_group_target, prevPeriod, powerTargets, powerQty]
  · norm_num [specContributes, specStart, prevPeriod]

/-- C3 (amended): with periods `[2020, 2025, 2030]` and life 25, an event at
year 2022 contributes to the 2025 target, does not contribute to the 2020
target, and does not contribute to the 2030 target either — each event is
counted only in the period whose window contains its year. -/
theorem event_2022_contribution_amended :
    tech_group_target [2020, 2025, 2030] 2020 "T"
        (powerTargets [⟨2022, "T", .inl 100⟩]) (fun _ => 25) = 0 ∧
    tech_group_target [2020, 2025, 2030] 2025 "T"
        (powerTargets [⟨2022, "T", .inl 100⟩]) (fun _ => 25) = 100 ∧
    tech_group_target [2020, 2025, 2030] 2030 "T"
        (powerTargets [⟨2022, "T", .inl 100⟩]) (fun _ => 25) = 0 := by
  refine ⟨?_, ?_, ?_⟩ <;> norm_num [tech_group_target, prevPeriod, powerTargets, powerQty]

/-- C4: when no decision variable matches a (period, tech group) pair, the
classifier raises for a non-zero target and skips for a zero target,
regardless of every policy flag — the check precedes all other rules. -/
theorem missing_projects_rule (psip : Bool) (relaxAfter : Option ℕ) (minRenew : Bool)
    (lastDef : String → ℕ) (pv : ProjVars) (ttg : String → Option String)
    (per : ℕ) (tg : String) (target : ℚ)
    (h : matchingProjects pv ttg tg per = []) :
    tech_group_target_rule psip relaxAfter minRenew lastDef pv ttg per tg target =
      (if target = 0 then .ok .Skip
       else .error ("Target was set for " ++ tg ++ ", but no matching projects are available.")) := by
  unfold tech_group_target_rule
  simp [h]

/-- An empty decision-variable registry used to witness C4. -/
def c4pv : ProjVars := ⟨[], fun _ => "", fun _ _ => false, fun _ _ => 0⟩

/-- Witness for C4 at a concrete input: no projects at all, so a target of 1
raises and a target of 0 skips. -/
theorem missing_projects_rule_witness :
    matchingProjects c4pv (fun _ => none) "G" 2020 = [] ∧
    tech_group_target_rule true none false (fun _ => 0)
        c4pv (fun _ => none) 2020 "G" 1 =
      .error ("Target was set for G, but no matching projects are available.") ∧
    tech_group_target_rule true none false (fun _ => 0)
        c4pv (fun _ => none) 2020 "G" 0 =
      .ok .Skip := by
  refine ⟨rfl, ?_, ?_⟩
  · rw [missing_projects_rule true none false (fun _ => 0) c4pv (fun _ => none) 2020 "G" 1 rfl,
      if_neg (by norm_num : ¬ ((1 : ℚ) = 0))]
    rfl
  · rw [missing_projects_rule true none false (fun _ => 0) c4pv (fun _ => none) 2020 "G" 0 rfl,
      if_pos rfl]

/-- The one-event base collection of the C5 counterexample. -/
def c5base : List BEvent := [⟨2020, "T", .inl 100⟩]

/-- Uniform 5-year service life for the C5 counterexample. -/
def c5life : String → ℕ := fun _ => 5

/-- C5 counterexample: applying the expansion step to the already-expanded
collection `[(2020, T, 100), (2025, T, 100)]` (horizon 2045, life 5) appends
a duplicate copy of the 2025 rebuild event (3 list entries instead of 2) and
doubles the aggregated 2025 period target from 100 to 200 — the claim fails
on the collection as the code holds it (a list whose entries all count). -/
theorem reexpansion_adds_duplicate_events :
    (expandTargets [] (expandTargets [] c5base c5life 2025) c5life 2025).length = 3 ∧
    (expandTargets [] c5base c5life 2025).length = 2 ∧
    tech_group_target [2020, 2025] 2025 "T"
      (powerTargets (expandTargets [] (expandTargets [] c5base c5life 2025) c5life 2025))
      c5life = 200 ∧
    tech_group_target [2020, 2025] 2025 "T"
      (powerTargets (expandTargets [] c5base c5life 2025)) c5life = 100 := by
  have h1 : expandTargets [] c5base c5life 2025 =
      [⟨2020, "T", .inl 100⟩, ⟨2025, "T", .inl 100⟩] := rfl
  have h2 : expandTargets [] (expandTargets [] c5base c5life 2025) c5life 2025 =
      [⟨2020, "T", .inl 100⟩, ⟨2025, "T", .inl 100⟩, ⟨2025, "T", .inl 100⟩] := rfl
  refine ⟨by rw [h2]; rfl, by rw [h1]; rfl, ?_, ?_⟩
  · rw [h2]
    norm_num [tech_group_target, prevPeriod, powerTargets, powerQty, c5life]
  · rw [h1]
    norm_num [tech_group_target, prevPeriod, powerTargets, powerQty, c5life]

/-- C5 (amended): rebuild expansion is idempotent up to multiplicity: when
every service life is positive, re-running the expansion over an
already-expanded collection produces no event value outside the expanded
collection — membership is unchanged (though duplicate list entries are
appended, which is why the code applies expansion exactly once). -/
theorem reexpansion_adds_no_new_event_values (seeds base : List BEvent)
    (life : String → ℕ) (H : ℕ) (hL : ∀ t, 0 < life t) (e : BEvent) :
    e ∈ expandTargets seeds (expandTargets seeds base life H) life H ↔
      e ∈ expandTargets seeds base life H := by
  constructor
  · intro h
    rcases (mem_expandTargets _ _ _ _ _).mp h with he | ⟨b, hb, hsucc⟩
    · exact he
    · rcases List.mem_append.mp hb with hb | hb
      · exact (mem_expandTargets _ _ _ _ _).mpr
          (Or.inr ⟨b, List.mem_append.mpr (Or.inl hb), hsucc⟩)
      · rcases (mem_expandTargets _ _ _ _ _).mp hb with hbase | ⟨c, hc, hbsucc⟩
        · exact (mem_expandTargets _ _ _ _ _).mpr
            (Or.inr ⟨b, List.mem_append.mpr (Or.inr hbase), hsucc⟩)
        · rcases (mem_successorEvents _ _ _ (hL b.tech) e).mp hsucc with
            ⟨het, heq, k, hk, hey, heH⟩
          rcases (mem_successorEvents _ _ _ (hL c.tech) b).mp hbsucc with
            ⟨hbt, hbq, j, hj, hby, hbH⟩
          refine (mem_expandTargets _ _ _ _ _).mpr (Or.inr ⟨c, hc, ?_⟩)
          refine (mem_successorEvents _ _ _ (hL c.tech) e).mpr
            ⟨het.trans hbt, heq.trans hbq, j + k, by omega, ?_, heH⟩
          rw [hey, hby, hbt, add_mul]
          ring
  · intro h
    exact List.mem_append.mpr (Or.inl h)

/-- Witness for C5 (amended) at a concrete input: the 2025 rebuild event is
in the twice-expanded collection because it is in the once-expanded one. -/
theorem reexpansion_adds_no_new_event_values_witness :
    (⟨2025, "T", Sum.inl 100⟩ : BEvent) ∈
      expandTargets [] (expandTargets [] c5base c5life 2025) c5life 2025 :=
  (reexpansion_adds_no_new_event_values [] c5base c5life 2025
      (fun t => by simp [c5life]) ⟨2025, "T", Sum.inl 100⟩).mpr
    (show _ ∈ [(⟨2020, "T", .inl 100⟩ : BEvent), ⟨2025, "T", .inl 100⟩] from
      List.mem_cons_of_mem _ (List.mem_cons_self _ _))

/-- C6: for a base event whose tech group has positive service life `L`, with
horizon end the start year of the last period, the expansion synthesizes
successor events exactly at the years `Y + k*L` (`k >= 1`) that are `<= H`,
each with the same tech group and quantity, and none beyond `H`. -/
theorem successor_event_coverage (periods : List ℕ) (life : String → ℕ) (b : BEvent)
    (hL : 0 < life b.tech) (e : BEvent) :
    e ∈ successorEvents life (lastPeriodOf periods) b ↔
      e.tech = b.tech ∧ e.qty = b.qty ∧
        ∃ k, 1 ≤ k ∧ e.year = b.year + k * life b.tech ∧ e.year ≤ lastPeriodOf periods :=
  mem_successorEvents life (lastPeriodOf periods) b hL e

/-- Witness for C6 at a concrete input: a 2020 event with life 25 and last
period 2045 has its first rebuild at 2045. -/
theorem successor_event_coverage_witness :
    (0 < (fun _ : String => 25) "DistPV") ∧
    ((⟨2045, "DistPV", Sum.inl 1⟩ : BEvent) ∈
      successorEvents (fun _ => 25) (lastPeriodOf [2020, 2045]) ⟨2020, "DistPV", Sum.inl 1⟩) :=
  ⟨by norm_num,
   (successor_event_coverage [2020, 2045] (fun _ => 25) ⟨2020, "DistPV", Sum.inl 1⟩
      (by norm_num) ⟨2045, "DistPV", Sum.inl 1⟩).mpr
    ⟨rfl, rfl, 1, le_refl 1, by norm_num, by norm_num [lastPeriodOf]⟩⟩

/-- C7: an event is in the merged target collection iff it is a definite
event, or the strict-plan flag is on and it is a policy-plan (PSIP) event
whose year is `<= relaxAfterYear` whenever that option is set. -/
theorem psip_event_inclusion (definite psipT : List BEvent) (psip : Bool)
    (relaxAfter : Option ℕ) (e : BEvent) :
    e ∈ mergedTargets definite psipT psip relaxAfter ↔
      e ∈ definite ∨ (psip = true ∧ e ∈ psipT ∧ ∀ ra, relaxAfter = some ra → e.year ≤ ra) := by
  unfold mergedTargets
  cases psip <;> cases relaxAfter <;> simp [List.mem_filter]

/-- C8: whenever the power (resp. energy) constraint for a pair is emitted as
an equality or a lower bound, the enforced value is the aggregated period
target plus the externally supplied predetermined capacity for that
(tech group, period). -/
theorem enforced_value_adds_predetermined (periods : List ℕ) (life : String → ℕ)
    (seeds definite psipT : List BEvent) (psip : Bool) (relaxAfter : Option ℕ)
    (minRenew : Bool) (pvP pvE : ProjVars) (ttg : String → Option String)
    (predP predE : String → ℕ → ℚ) (per : ℕ) (tg : String) (b v : ℚ) :
    ((enforcePowerTarget periods life seeds definite psipT psip relaxAfter minRenew
        pvP ttg predP per tg = .ok (.MustEqual b v) ∨
      enforcePowerTarget periods life seeds definite psipT psip relaxAfter minRenew
        pvP ttg predP per tg = .ok (.AtLeast b v)) →
      v = tech_group_target periods per tg
            (powerTargets (expandTargets seeds (mergedTargets definite psipT psip relaxAfter)
              life (lastPeriodOf periods))) life + predP tg per) ∧
    ((enforceEnergyTarget periods life seeds definite psipT psip relaxAfter minRenew
        pvE ttg predE per tg = .ok (.MustEqual b v) ∨
      enforceEnergyTarget periods life seeds definite psipT psip relaxAfter minRenew
        pvE ttg predE per tg = .ok (.AtLeast b v)) →
      v = tech_group_target periods per tg
            (energyTargets (expandTargets seeds (mergedTargets definite psipT psip relaxAfter)
              life (lastPeriodOf periods))) life + predE tg per) := by
  constructor
  · intro h
    exact tech_group_target_rule_target_value psip relaxAfter minRenew _ pvP ttg per tg _ b v h
  · intro h
    exact tech_group_target_rule_target_value psip relaxAfter minRenew _ pvE ttg per tg _ b v h

/-- A one-project registry used to witness C8. -/
def c8pv : ProjVars := ⟨["P1"], fun _ => "T1", fun _ _ => true, fun _ _ => 0⟩

/-- Technology-to-group map used to witness C8. -/
def c8ttg : String → Option String := fun t => if t = "T1" then some "G" else none

/-- Witness for C8 at a concrete input: with empty target lists the emitted
lower bound's value equals the (zero) aggregated target plus the (zero)
predetermined capacity, for power and for energy. -/
theorem enforced_value_adds_predetermined_witness :
    ((0 : ℚ) = tech_group_target [2020] 2020 "G"
        (powerTargets (expandTargets [] (mergedTargets [] [] false none)
          (fun _ => 1) (lastPeriodOf [2020]))) (fun _ => 1) + (fun _ _ => (0 : ℚ)) "G" 2020) ∧
    ((0 : ℚ) = tech_group_target [2020] 2020 "G"
        (energyTargets (expandTargets [] (mergedTargets [] [] false none)
          (fun _ => 1) (lastPeriodOf [2020]))) (fun _ => 1) + (fun _ _ => (0 : ℚ)) "G" 2020) := by
  have hc := enforced_value_adds_predetermined [2020] (fun _ => 1) [] [] [] false none false
    c8pv c8pv c8ttg (fun _ _ => 0) (fun _ _ => 0) 2020 "G" 0 0
  refine ⟨hc.1 (Or.inr ?_), hc.2 (Or.inr ?_)⟩ <;>
    norm_num [enforcePowerTarget, enforceEnergyTarget, tech_group_target_rule,
      matchingProjects, c8pv, c8ttg, mergedTargets, expandTargets, expandTargetsFuel,
      successorEventsFuel, rebuildLoop, lastPeriodOf, finalDefiniteList, lastDefiniteTarget,
      tech_group_target, powerTargets, energyTargets, prevPeriod]

/-- C9: a present `USE_PSIP_PLAN` value outside the recognized true/false
spellings (after lowercasing) makes the scheduler raise before any target is
computed, while a recognized spelling overrides the command-line flag: the
result is `true`/`false` independently of the flag. -/
theorem use_psip_plan_override (s : String) (flag : Bool) :
    (strLower s ∉ psipTrueSpellings ∧ strLower s ∉ psipFalseSpellings →
      use_psip_plan (some s) flag =
        .error ("Unrecognized value for environment variable USE_PSIP_PLAN=" ++ s ++
          " (should be 0 or 1)")) ∧
    (strLower s ∈ psipTrueSpellings → use_psip_plan (some s) flag = .ok true) ∧
    (strLower s ∈ psipFalseSpellings → use_psip_plan (some s) flag = .ok false) := by
  refine ⟨fun h => ?_, fun h => ?_, fun h => ?_⟩
  · simp [use_psip_plan, h.1, h.2]
  · simp [use_psip_plan, h]
  · have hne : strLower s ∉ psipTrueSpellings := by
      simp only [psipFalseSpellings, List.mem_cons, List.not_mem_nil, or_false] at h
      rcases h with h | h | h | h | h <;> rw [h] <;> decide
    simp [use_psip_plan, h, hne]

/-- Witness for C9 at concrete inputs: "maybe" raises, "YES" forces the plan
on even when the flag is off, "Off" forces it off even when the flag is on. -/
theorem use_psip_plan_override_witness :
    use_psip_plan (some "maybe") true =
      .error ("Unrecognized value for environment variable USE_PSIP_PLAN=maybe (should be 0 or 1)") ∧
    use_psip_plan (some "YES") false = .ok true ∧
    use_psip_plan (some "Off") true = .ok false :=
  ⟨(use_psip_plan_override "maybe" true).1 (by decide),
   (use_psip_plan_override "YES" false).2.1 (by decide),
   (use_psip_plan_override "Off" true).2.2 (by decide)⟩

/-- C10: when every tech group referenced by a rebuildable event has strictly
positive service life, the rebuild loop terminates: the expansion is
independent of the iteration bound once it is at least `H + 1`, i.e. every
sufficiently large fuel yields the same fully expanded collection. -/
theorem expansion_loop_fuel_independent (seeds base : List BEvent) (life : String → ℕ)
    (H fuel : ℕ) (hL : ∀ e ∈ seeds ++ base, 0 < life e.tech) (hf : H + 1 ≤ fuel) :
    expandTargetsFuel fuel seeds base life H = expandTargets seeds base life H := by
  unfold expandTargets expandTargetsFuel
  congr 1
  apply List.flatMap_congr
  intro b hb
  unfold successorEventsFuel
  rw [rebuildLoop_stab b.year (life b.tech) H (hL b hb) fuel (H + 2) 1 (by omega) (by omega)]

/-- Witness for C10 at a concrete input: with life 25 and horizon 2045, fuel
2046 already yields the fully expanded collection. -/
theorem expansion_loop_fuel_independent_witness :
    expandTargetsFuel 2046 [] [⟨2020, "T", Sum.inl 1⟩] (fun _ => 25) 2045 =
      expandTargets [] [⟨2020, "T", Sum.inl 1⟩] (fun _ => 25) 2045 :=
  expansion_loop_fuel_independent [] [⟨2020, "T", Sum.inl 1⟩] (fun _ => 25) 2045 2046
    (by intro e _; norm_num) (by omega)

end HecoOutlook
